import Mathlib

/-!
Verification development for the csplm layered-image project editor.

The development shallowly embeds the project/export pipeline of the
repository: the runtime and on-disk layer data model, the project-file
validator, the runtime/project converters (`ProjectLoader`), the
quick-export compositing loop of `TaskManager.handleQuickExportPNG`
(decode events, the `loadedImages`/`checkComplete` join, draw geometry),
and the layer-list handlers of the editor page (`handleApplyPreset`,
`handleReorderLayers`, `handleDeleteLayer`).

JS-specific behaviour is modelled explicitly: string falsiness of `""`
(`jsOrString`), possibly missing JSON fields (`Option`), the stability of
`Array.prototype.sort` under the `a.z_index - b.z_index` comparator
(`sortByKey`, a stable insertion sort), `Array.prototype.findIndex`
(`jsFindIndex`), and `splice`-based reordering (`List.eraseIdx` /
`List.insertIdx`).  JS numeric fields are modelled by `Int` (all values
the claims touch are integral) and the draw geometry by `ℚ`.
-/

namespace CSPLM

/-- Runtime layer record (interface `Layer`, `src/unnamed/part_002`). -/
structure Layer where
  id : String
  name : String
  src : String
  file_path : String
  width : Int
  height : Int
  isVisible : Bool
  zIndex : Int
deriving Repr, DecidableEq

/-- On-disk layer record (interface `ProjectLayer`, `@/types/project`).
`is_visible` is an `Option` because `convertProjectLayersToRuntimeLayers`
guards it with `typeof layer.is_visible === 'boolean'`; `none` models a
missing or non-boolean JSON field.  `z_index` is kept as a plain `Int`:
the loader sorts on `a.z_index - b.z_index`, which is only meaningful for
numeric values, so in this typed embedding the
`typeof layer.z_index === 'number'` guard always takes its first branch. -/
structure ProjectLayer where
  id : String
  name : String
  file_path : String
  width : Int
  height : Int
  is_visible : Option Bool
  z_index : Int
deriving Repr, DecidableEq

/-- On-disk preset record (interface `LayerPreset` in `@/types/project`,
snake_case schema: `layer_states`, `created_at`).  The
`Record<string, boolean>` is modelled as an association list. -/
structure ProjectPreset where
  id : String
  name : String
  layer_states : List (String × Bool)
  created_at : String
deriving Repr, DecidableEq

/-- Runtime preset record (interface `LayerPreset` with `layerStates` and
`createdAt : Date`; a `Date` is modelled by its ISO string). -/
structure LayerPreset where
  id : String
  name : String
  layerStates : List (String × Bool)
  createdAt : String
deriving Repr, DecidableEq

/-- On-disk canvas record (interface `ProjectCanvas`). -/
structure ProjectCanvas where
  width : Int
  height : Int
deriving Repr, DecidableEq

/-- Validated project file (interface `ProjectFile`). -/
structure ProjectFile where
  version : String
  canvas : ProjectCanvas
  layers : List ProjectLayer
  presets : List ProjectPreset
deriving Repr, DecidableEq

/-- Raw canvas as parsed from JSON before validation: `width`/`height`
are `none` when the field is missing or not a number (the code checks
`typeof project.canvas.width !== 'number'`). -/
structure RawCanvas where
  width : Option Int
  height : Option Int
deriving Repr, DecidableEq

/-- Raw project as parsed from JSON before validation.  `none` models a
missing field (`!project.version`, `!project.canvas`) or a non-array
value (`!Array.isArray(project.layers)` / `...presets`). -/
structure RawProject where
  version : Option String
  canvas : Option RawCanvas
  layers : Option (List ProjectLayer)
  presets : Option (List ProjectPreset)
deriving Repr, DecidableEq

/-- JS `s || d` for strings: the empty string is falsy. -/
def jsOrString (s d : String) : String :=
  if s = "" then d else s

/-- JS truthiness of a possibly-missing string (`!project.version` is
true when the field is absent or the empty string). -/
def jsTruthyString : Option String → Bool
  | none => false
  | some s => s != ""

/-- Stable insertion of `a` into a list already stably sorted by `key`:
`a` goes in front of the first element whose key is not smaller.  This is
the behaviour of `Array.prototype.sort` (a stable sort) under the
comparator `(a, b) => key(a) - key(b)`. -/
def insertByKey (key : α → Int) (a : α) : List α → List α
  | [] => [a]
  | b :: l => if key b < key a then b :: insertByKey key a l else a :: b :: l

/-- Stable sort by an integer key, modelling
`array.sort((a, b) => key(a) - key(b))`. -/
def sortByKey (key : α → Int) : List α → List α
  | [] => []
  | a :: l => insertByKey key a (sortByKey key l)

/-- JS `array.map((x, index) => f(index, x))`, starting at index `n`. -/
def mapWithIndex (f : Nat → α → β) : Nat → List α → List β
  | _, [] => []
  | n, a :: l => f n a :: mapWithIndex f (n + 1) l

/-- JS `array.findIndex(p)`, with `none` for the `-1` result. -/
def jsFindIndex (p : α → Bool) : List α → Option Nat
  | [] => none
  | a :: l => if p a then some 0 else (jsFindIndex p l).map (· + 1)

/-- Record lookup `record[key]` on a `Record<string, boolean>` modelled
as an association list (JS object keys are unique; lookup takes the
first binding). -/
def recordLookup (states : List (String × Bool)) (key : String) : Option Bool :=
  (states.find? (fun kv => kv.1 == key)).map (fun kv => kv.2)

/-- Validating loader, `ProjectLoader.loadProjectFile`
(`src/unnamed/part_003`, lines 8-59): the in-order fail-fast checks run
after `JSON.parse`, each `throw` surfacing its message via `reject`. -/
def loadProjectFile (p : RawProject) : Except String ProjectFile :=
  if jsTruthyString p.version = false then
    Except.error "Missing version field"
  else
    match p.version, p.canvas with
    | some v, some c =>
      match c.width, c.height with
      | some w, some h =>
        match p.layers with
        | none => Except.error "Missing or invalid layers array"
        | some layers =>
          match p.presets with
          | none => Except.error "Missing or invalid presets array"
          | some presets =>
            if w ≤ 0 ∨ h ≤ 0 then
              Except.error "Canvas dimensions must be positive"
            else if 50000 < w ∨ 50000 < h then
              Except.error "Canvas dimensions are too large (max 50000px)"
            else
              Except.ok { version := v, canvas := { width := w, height := h },
                          layers := layers, presets := presets }
      | _, _ => Except.error "Missing or invalid canvas dimensions"
    | _, none => Except.error "Missing or invalid canvas dimensions"
    | none, _ => Except.error "Missing version field"

/-- Legacy loader, `ProjectLoader.loadProjectFile`
(`src/src/utils/project-loader.ts`, lines 4-27): a single combined
truthiness check `!project.version || !project.canvas || !project.layers`
and no canvas-dimension validation; on success the raw parsed object is
resolved unchanged. -/
def loadProjectFileLegacy (p : RawProject) : Except String RawProject :=
  if jsTruthyString p.version = false ∨ p.canvas = none ∨ p.layers = none then
    Except.error "Invalid project file format"
  else
    Except.ok p

/-- Per-layer body of `ProjectLoader.convertProjectLayersToRuntimeLayers`
(`src/unnamed/part_003`, lines 66-91).  `resolveSrc` stands for
`convertFilePathToSrc`, which the source resolves against ambient
platform state (Tauri detection, `btoa` placeholders); the spec's §4.2
injects it as a resolver capability, and no claim depends on `src`. -/
def convertOneLayer (resolveSrc : String → Int → Int → String)
    (index : Nat) (layer : ProjectLayer) : Layer :=
  let width := if layer.width > 0 then layer.width else 1920
  let height := if layer.height > 0 then layer.height else 1080
  { id := jsOrString layer.id ("layer-" ++ toString index)
    name := jsOrString layer.name ("Layer " ++ toString (index + 1))
    src := resolveSrc layer.file_path width height
    file_path := jsOrString layer.file_path
      ("./assets/layer_" ++ toString (index + 1) ++ ".png")
    width := width
    height := height
    isVisible := layer.is_visible.getD true
    zIndex := layer.z_index }

/-- `ProjectLoader.convertProjectLayersToRuntimeLayers`
(`src/unnamed/part_003`, lines 61-95): stable sort ascending by
`z_index`, then the per-layer conversion with the post-sort index. -/
def convertProjectLayersToRuntimeLayers (resolveSrc : String → Int → Int → String)
    (projectLayers : List ProjectLayer) : List Layer :=
  mapWithIndex (convertOneLayer resolveSrc) 0
    (sortByKey (fun l => l.z_index) projectLayers)

/-- `ProjectLoader.convertRuntimeLayersToProjectLayers`
(`src/unnamed/part_003`, lines 97-107): plain field mapping, no re-sort. -/
def convertRuntimeLayersToProjectLayers (layers : List Layer) : List ProjectLayer :=
  layers.map (fun layer =>
    { id := layer.id
      name := layer.name
      file_path := layer.file_path
      width := layer.width
      height := layer.height
      is_visible := some layer.isVisible
      z_index := layer.zIndex })

/-- Well-formedness of an on-disk layer: every persisted field carries a
meaningful value (non-empty strings, positive dimensions, a boolean
`is_visible`), so none of the loader's fallback defaults fires. -/
def WFProjectLayer (l : ProjectLayer) : Prop :=
  l.id ≠ "" ∧ l.name ≠ "" ∧ l.file_path ≠ "" ∧
    0 < l.width ∧ 0 < l.height ∧ l.is_visible.isSome = true

instance (l : ProjectLayer) : Decidable (WFProjectLayer l) :=
  inferInstanceAs (Decidable (l.id ≠ "" ∧ l.name ≠ "" ∧ l.file_path ≠ "" ∧
    0 < l.width ∧ 0 < l.height ∧ l.is_visible.isSome = true))

/-- Per-preset body of `ProjectLoader.exportProject`
(`src/unnamed/part_003`, lines 156-161).  For a well-typed runtime
preset (`layerStates` and `createdAt` are required fields of the
`LayerPreset` interface) the fallbacks `preset.layerStates ||
preset.layer_states` and `preset.createdAt ? preset.createdAt.toISOString()
: ...` always take their first alternative. -/
def exportPreset (preset : LayerPreset) : ProjectPreset :=
  { id := preset.id
    name := preset.name
    layer_states := preset.layerStates
    created_at := preset.createdAt }

/-- `ProjectLoader.exportProject` (`src/unnamed/part_003`, lines 148-163). -/
def exportProject (layers : List Layer) (presets : List LayerPreset)
    (canvasWidth canvasHeight : Int) : ProjectFile :=
  { version := "1.0"
    canvas := { width := canvasWidth, height := canvasHeight }
    layers := convertRuntimeLayersToProjectLayers layers
    presets := presets.map exportPreset }

/-- The data fields of `TaskContext` (`src/unnamed/part_002`).  The
callback fields (`onApplyPreset`, `onLoadProject`) are not used by the
save path and are omitted. -/
structure TaskContext where
  layers : List Layer
  canvasWidth : Int
  canvasHeight : Int
deriving Repr, DecidableEq

/-- Project data serialized by `TaskManager.handleSave`
(`src/unnamed/part_002`, lines 520-558): both the Tauri and the web
branch build `ProjectLoader.exportProject(this.context.layers, [], ...)`
with the literal empty array for presets (source comment: "Presets would
be passed from context"). -/
def handleSaveProjectData (ctx : TaskContext) : ProjectFile :=
  exportProject ctx.layers [] ctx.canvasWidth ctx.canvasHeight

/-- One settled per-layer image decode during the quick-export loop:
`load i` fires `img.onload`, `fail i` fires `img.onerror`, for the layer
at position `i` of the sorted visible-layer list. -/
inductive DecodeEvent where
  | load (i : Nat)
  | fail (i : Nat)
deriving Repr, DecidableEq

/-- Index of the layer a decode event settles. -/
def DecodeEvent.index : DecodeEvent → Nat
  | .load i => i
  | .fail i => i

/-- Index painted by a decode event: `some` for `onload` (which calls
`ctx.drawImage`), `none` for `onerror` (which only warns). -/
def DecodeEvent.successIndex : DecodeEvent → Option Nat
  | .load i => some i
  | .fail _ => none

/-- State of the quick-export decode loop: the draw calls issued so far
(in issue order), the `loadedImages` counter, and — once `checkComplete`
has resolved the promise — the draw list at the moment of resolution. -/
structure LoopState where
  painted : List Nat
  loadedImages : Nat
  resolvedAt : Option (List Nat)
deriving Repr, DecidableEq

/-- `checkComplete` closure of `handleQuickExportPNG`
(`src/unnamed/part_002`, lines 406-412): when `loadedImages ===
totalImages`, download the canvas and resolve (a promise resolves only
once). -/
def checkComplete (totalImages : Nat) (s : LoopState) : LoopState :=
  if s.loadedImages = totalImages then
    match s.resolvedAt with
    | none => { s with resolvedAt := some s.painted }
    | some _ => s
  else s

/-- One settled decode in `handleQuickExportPNG` (`src/unnamed/part_002`,
lines 419-440): `onload` draws the image then increments `loadedImages`
and runs `checkComplete`; `onerror` only increments and checks. -/
def handleDecodeEvent (totalImages : Nat) (s : LoopState) : DecodeEvent → LoopState
  | .load i => checkComplete totalImages
      { s with painted := s.painted ++ [i], loadedImages := s.loadedImages + 1 }
  | .fail _ => checkComplete totalImages
      { s with loadedImages := s.loadedImages + 1 }

/-- The decode loop run over a sequence of settled decode events, from
the initial state (`loadedImages = 0`, nothing painted, unresolved). -/
def runDecodeEvents (totalImages : Nat) (es : List DecodeEvent) : LoopState :=
  es.foldl (handleDecodeEvent totalImages) { painted := [], loadedImages := 0, resolvedAt := none }

/-- Visible layers sorted ascending by `zIndex`
(`this.context.layers.filter((layer) => layer.isVisible).sort((a, b) =>
a.zIndex - b.zIndex)`, `src/unnamed/part_002` line 393). -/
def visibleSorted (layers : List Layer) : List Layer :=
  sortByKey (fun l => l.zIndex) (layers.filter (fun l => l.isVisible))

/-- Observable outcome of a quick export: the canvas dimensions and the
layers drawn onto it, in draw order. -/
structure ExportResult where
  width : Int
  height : Int
  paintedLayers : List Layer
deriving Repr, DecidableEq

/-- `TaskManager.handleQuickExportPNG` (`src/unnamed/part_002`, lines
380-445), parameterised by the order in which the initiated decodes
settle.  The canvas is sized `canvasWidth × canvasHeight` and cleared;
with no visible layers the canvas is downloaded at once; otherwise the
promise resolves (with the canvas as painted so far) exactly when
`checkComplete` observes `loadedImages === totalImages`; `none` means the
promise has not resolved after the given events. -/
def quickExportPNG (layers : List Layer) (canvasWidth canvasHeight : Int)
    (es : List DecodeEvent) : Option ExportResult :=
  let visibleLayers := visibleSorted layers
  if visibleLayers.length = 0 then
    some { width := canvasWidth, height := canvasHeight, paintedLayers := [] }
  else
    match (runDecodeEvents visibleLayers.length es).resolvedAt with
    | some painted =>
        some { width := canvasWidth, height := canvasHeight,
               paintedLayers := painted.filterMap (fun i => visibleLayers[i]?) }
    | none => none

/-- Every initiated decode settles exactly once (in an arbitrary order,
each either `load` or `fail`): the settled indices are a permutation of
`0, ..., totalImages - 1`. -/
def ValidEvents (totalImages : Nat) (es : List DecodeEvent) : Prop :=
  List.Perm (es.map DecodeEvent.index) (List.range totalImages)

instance (totalImages : Nat) (es : List DecodeEvent) : Decidable (ValidEvents totalImages es) :=
  inferInstanceAs (Decidable (List.Perm (es.map DecodeEvent.index) (List.range totalImages)))

/-- Destination rectangle of one `ctx.drawImage` call. -/
structure DrawRect where
  x : ℚ
  y : ℚ
  w : ℚ
  h : ℚ
deriving Repr, DecidableEq

/-- Draw geometry of the Tauri-aware task manager's `img.onload`
(`src/unnamed/part_002`, lines 419-431): uniform scale
`min(canvasWidth/layer.width, canvasHeight/layer.height)`, centred. -/
def drawRectTauri (canvasWidth canvasHeight layerWidth layerHeight : ℚ) : DrawRect :=
  let scaleX := canvasWidth / layerWidth
  let scaleY := canvasHeight / layerHeight
  let scale := min scaleX scaleY
  let scaledWidth := layerWidth * scale
  let scaledHeight := layerHeight * scale
  let offsetX := (canvasWidth - scaledWidth) / 2
  let offsetY := (canvasHeight - scaledHeight) / 2
  { x := offsetX, y := offsetY, w := scaledWidth, h := scaledHeight }

/-- Draw geometry of the web task manager's `img.onload`
(`src/unnamed/part_002`, line 110): `ctx.drawImage(img, 0, 0,
canvasWidth, canvasHeight)` — the layer is stretched to the full canvas. -/
def drawRectWeb (canvasWidth canvasHeight layerWidth layerHeight : ℚ) : DrawRect :=
  { x := 0, y := 0, w := canvasWidth, h := canvasHeight }

/-- Modelled from the spec (§4.4 step 5): `scale =
min(canvasWidth/layerWidth, canvasHeight/layerHeight)` preserving aspect
ratio, `offset = (canvasDimension - scaledDimension)/2` in each
dimension. -/
def specScaledCenteredRect (canvasWidth canvasHeight layerWidth layerHeight : ℚ) : DrawRect :=
  let scale := min (canvasWidth / layerWidth) (canvasHeight / layerHeight)
  { x := (canvasWidth - layerWidth * scale) / 2
    y := (canvasHeight - layerHeight * scale) / 2
    w := layerWidth * scale
    h := layerHeight * scale }

/-- `handleApplyPreset` (`src/unnamed/part_004`, lines 187-194): each
layer's visibility is overwritten by `layerStates[layer.id] ??
layer.isVisible`. -/
def handleApplyPreset (layerStates : List (String × Bool)) (prev : List Layer) : List Layer :=
  prev.map (fun layer =>
    { layer with isVisible := (recordLookup layerStates layer.id).getD layer.isVisible })

/-- `handleReorderLayers` (`src/unnamed/part_004`, lines 168-185):
`findIndex` both ids (unchanged list if either is `-1`), `splice` the
dragged layer out, `splice` it back in at the target's index, then
rewrite every `zIndex` to its array index. -/
def handleReorderLayers (draggedId targetId : String) (prev : List Layer) : List Layer :=
  match jsFindIndex (fun layer => layer.id == draggedId) prev,
        jsFindIndex (fun layer => layer.id == targetId) prev with
  | some draggedIndex, some targetIndex =>
    match prev[draggedIndex]? with
    | some draggedLayer =>
        let newLayers := (prev.eraseIdx draggedIndex).insertIdx targetIndex draggedLayer
        mapWithIndex (fun index layer => { layer with zIndex := Int.ofNat index }) 0 newLayers
    | none => prev
  | _, _ => prev

/-- `handleDeleteLayer` (`src/unnamed/part_004`, lines 156-166): early
return when at most one layer remains, otherwise filter out the layers
with the given id. -/
def handleDeleteLayer (id : String) (layers : List Layer) : List Layer :=
  if layers.length ≤ 1 then layers
  else layers.filter (fun layer => layer.id != id)

/-! Helper lemmas about the JS array-operation models. -/

theorem insertByKey_perm (key : α → Int) (a : α) (l : List α) :
    List.Perm (insertByKey key a l) (a :: l) := by
  induction l with
  | nil => simp [insertByKey]
  | cons b l ih =>
    by_cases h : key b < key a
    · simpa [insertByKey, h] using (ih.cons b).trans (List.Perm.swap a b l)
    · simp [insertByKey, h]

theorem sortByKey_perm (key : α → Int) (l : List α) :
    List.Perm (sortByKey key l) l := by
  induction l with
  | nil => simp [sortByKey]
  | cons a l ih => exact (insertByKey_perm key a _).trans (ih.cons a)

theorem sortByKey_eq_self (key : α → Int) :
    ∀ l : List α, List.Chain' (fun a b => key a ≤ key b) l → sortByKey key l = l
  | [], _ => rfl
  | [_], _ => rfl
  | a :: b :: l, h => by
    have hab : key a ≤ key b := (List.chain'_cons.mp h).1
    have ht : sortByKey key (b :: l) = b :: l :=
      sortByKey_eq_self key (b :: l) (List.chain'_cons.mp h).2
    simp only [sortByKey] at ht ⊢
    rw [ht, insertByKey, if_neg (not_lt.mpr hab)]

theorem mapWithIndex_length (f : Nat → α → β) :
    ∀ (n : Nat) (l : List α), (mapWithIndex f n l).length = l.length
  | _, [] => rfl
  | n, _ :: l => by simp [mapWithIndex, mapWithIndex_length f (n + 1) l]

theorem mapWithIndex_getElem? (f : Nat → α → β) :
    ∀ (n : Nat) (l : List α) (i : Nat),
      (mapWithIndex f n l)[i]? = (l[i]?).map (f (n + i))
  | _, [], i => by simp [mapWithIndex]
  | n, a :: l, 0 => by simp [mapWithIndex]
  | n, a :: l, i + 1 => by
    have ih := mapWithIndex_getElem? f (n + 1) l i
    have hn : n + 1 + i = n + (i + 1) := by omega
    rw [hn] at ih
    simp only [mapWithIndex, List.getElem?_cons_succ, ih]

theorem mapWithIndex_map (f : Nat → α → β) (g : β → γ) (g0 : α → γ)
    (hg : ∀ i a, g (f i a) = g0 a) :
    ∀ (n : Nat) (l : List α), (mapWithIndex f n l).map g = l.map g0
  | _, [] => rfl
  | n, a :: l => by
    simp [mapWithIndex, hg, mapWithIndex_map f g g0 hg (n + 1) l]

theorem jsFindIndex_eq_some (p : α → Bool) :
    ∀ (l : List α) (i : Nat), jsFindIndex p l = some i →
      ∃ a, l[i]? = some a ∧ p a = true
  | [], i, h => by simp [jsFindIndex] at h
  | a :: l, i, h => by
    by_cases hp : p a
    · simp [jsFindIndex, hp] at h
      exact ⟨a, by simp [← h], hp⟩
    · simp [jsFindIndex, hp] at h
      obtain ⟨j, hj, rfl⟩ := h
      obtain ⟨b, hb, hpb⟩ := jsFindIndex_eq_some p l j hj
      exact ⟨b, by simpa using hb, hpb⟩

theorem jsFindIndex_lt_length (p : α → Bool) (l : List α) (i : Nat)
    (h : jsFindIndex p l = some i) : i < l.length := by
  obtain ⟨a, ha, _⟩ := jsFindIndex_eq_some p l i h
  exact (List.getElem?_eq_some.mp ha).1

theorem insertIdx_getElem?_self (a : α) (n : Nat) (l : List α) (h : n ≤ l.length) :
    (l.insertIdx n a)[n]? = some a := by
  have hlen : n < (l.insertIdx n a).length := by
    rw [List.length_insertIdx n l h]; omega
  rw [List.getElem?_eq_getElem hlen, List.getElem_insertIdx_self l a n h]

theorem perm_getElem_cons_eraseIdx :
    ∀ (l : List α) (d : Nat) (a : α), l[d]? = some a →
      List.Perm l (a :: l.eraseIdx d)
  | [], d, a, h => by simp at h
  | b :: l, 0, a, h => by
    simp at h
    subst h
    simp [List.eraseIdx]
  | b :: l, d + 1, a, h => by
    simp at h
    have ih := perm_getElem_cons_eraseIdx l d a h
    rw [List.eraseIdx_cons_succ]
    exact (ih.cons b).trans (List.Perm.swap a b _)

/-! Round-trip behaviour of the converters (claim C2). -/

theorem convertBack_mapWithIndex (resolveSrc : String → Int → Int → String) :
    ∀ (n : Nat) (M : List ProjectLayer), (∀ l ∈ M, WFProjectLayer l) →
      convertRuntimeLayersToProjectLayers
        (mapWithIndex (convertOneLayer resolveSrc) n M) = M
  | _, [], _ => rfl
  | n, l :: M, h => by
    obtain ⟨h1, h2, h3, h4, h5, h6⟩ := h l (by simp)
    have ih := convertBack_mapWithIndex resolveSrc (n + 1) M
      (fun x hx => h x (by simp [hx]))
    obtain ⟨vb, hvb⟩ := Option.isSome_iff_exists.mp h6
    simp only [convertRuntimeLayersToProjectLayers, mapWithIndex, List.map_cons] at ih ⊢
    rw [ih]
    simp only [convertOneLayer, jsOrString, if_pos h4, if_pos h5, if_neg h1, if_neg h2,
      if_neg h3, hvb, Option.getD_some, List.cons.injEq]
    exact ⟨by rw [← hvb], trivial⟩

/-- The claim `toProject(toRuntime(L)) == L` fails on the code for valid
but unsorted input: `convertProjectLayersToRuntimeLayers` stably sorts by
`z_index`, so the round trip returns the sorted list, not `L`.  Here both
layers are fully well-formed (distinct non-empty ids, positive
dimensions, boolean visibility) yet the round trip swaps them. -/
theorem roundTrip_reorders_unsorted_input :
    convertRuntimeLayersToProjectLayers (convertProjectLayersToRuntimeLayers
      (fun _ _ _ => "")
      [{ id := "a", name := "A", file_path := "a.png", width := 100, height := 100,
         is_visible := some true, z_index := 1 },
       { id := "b", name := "B", file_path := "b.png", width := 100, height := 100,
         is_visible := some true, z_index := 0 }])
    = [{ id := "b", name := "B", file_path := "b.png", width := 100, height := 100,
         is_visible := some true, z_index := 0 },
       { id := "a", name := "A", file_path := "a.png", width := 100, height := 100,
         is_visible := some true, z_index := 1 }] ∧
    ([{ id := "b", name := "B", file_path := "b.png", width := 100, height := 100,
        is_visible := some true, z_index := 0 },
      { id := "a", name := "A", file_path := "a.png", width := 100, height := 100,
        is_visible := some true, z_index := 1 }] : List ProjectLayer)
    ≠ [{ id := "a", name := "A", file_path := "a.png", width := 100, height := 100,
         is_visible := some true, z_index := 1 },
       { id := "b", name := "B", file_path := "b.png", width := 100, height := 100,
         is_visible := some true, z_index := 0 }] := by
  constructor
  · rfl
  · decide

/-- Amended round-trip law: for a well-formed on-disk layer list the
round trip `toProject ∘ toRuntime` returns the stable sort of the input
by `z_index` (in particular a permutation preserving every layer's
persisted fields), and it is the identity exactly when the input is
already sorted ascending by `z_index`.  The result does not depend on
the injected asset resolver. -/
theorem roundTrip_for_sorted_wellformed (resolveSrc : String → Int → Int → String)
    (L : List ProjectLayer) (hwf : ∀ l ∈ L, WFProjectLayer l) :
    convertRuntimeLayersToProjectLayers (convertProjectLayersToRuntimeLayers resolveSrc L)
      = sortByKey (fun l => l.z_index) L ∧
    List.Perm
      (convertRuntimeLayersToProjectLayers (convertProjectLayersToRuntimeLayers resolveSrc L))
      L ∧
    (List.Chain' (fun a b => a.z_index ≤ b.z_index) L →
      convertRuntimeLayersToProjectLayers (convertProjectLayersToRuntimeLayers resolveSrc L)
        = L) := by
  have hmem : ∀ l ∈ sortByKey (fun l : ProjectLayer => l.z_index) L, WFProjectLayer l :=
    fun l hl => hwf l ((sortByKey_perm _ L).mem_iff.mp hl)
  have hmain : convertRuntimeLayersToProjectLayers
      (convertProjectLayersToRuntimeLayers resolveSrc L)
      = sortByKey (fun l => l.z_index) L :=
    convertBack_mapWithIndex resolveSrc 0 _ hmem
  refine ⟨hmain, ?_, ?_⟩
  · rw [hmain]; exact sortByKey_perm _ L
  · intro hsorted
    rw [hmain, sortByKey_eq_self _ L hsorted]

/-- Witness: a concrete sorted, well-formed two-layer list round-trips to
itself. -/
theorem roundTrip_for_sorted_wellformed_witness :
    convertRuntimeLayersToProjectLayers (convertProjectLayersToRuntimeLayers
      (fun _ _ _ => "")
      [{ id := "a", name := "A", file_path := "a.png", width := 100, height := 100,
         is_visible := some true, z_index := 0 },
       { id := "b", name := "B", file_path := "b.png", width := 100, height := 100,
         is_visible := some false, z_index := 5 }])
    = [{ id := "a", name := "A", file_path := "a.png", width := 100, height := 100,
         is_visible := some true, z_index := 0 },
       { id := "b", name := "B", file_path := "b.png", width := 100, height := 100,
         is_visible := some false, z_index := 5 }] :=
  (roundTrip_for_sorted_wellformed (fun _ _ _ => "") _
    (by intro l hl; fin_cases hl <;> decide)).2.2
    (by simp [List.chain'_cons])

/-! Validation order of the project loader (claim C3). -/

/-- The claim fails on the legacy loader
(`src/src/utils/project-loader.ts`, lines 4-27), which performs only the
combined presence check `!project.version || !project.canvas ||
!project.layers`: it accepts `canvas.width = 60000` (the claim says
loading fails with the canvas-too-large error) and likewise accepts
`canvas.width = 0`. -/
theorem legacy_loader_skips_canvas_checks :
    loadProjectFileLegacy
      { version := some "1.0", canvas := some { width := some 60000, height := some 1080 },
        layers := some [], presets := some [] }
      = Except.ok
      { version := some "1.0", canvas := some { width := some 60000, height := some 1080 },
        layers := some [], presets := some [] } ∧
    loadProjectFileLegacy
      { version := some "1.0", canvas := some { width := some 0, height := some 1080 },
        layers := some [], presets := some [] }
      = Except.ok
      { version := some "1.0", canvas := some { width := some 0, height := some 1080 },
        layers := some [], presets := some [] } := by
  constructor <;> rfl

/-- Amended claim: the validating loader (`src/unnamed/part_003`)
performs the checks in the specified order and fails fast with the
specific error of the first violated check: version present; canvas with
numeric width/height; layers an array; presets an array; both dimensions
positive; both dimensions at most 50000.  Consequently `canvas.width = 0`
fails with the non-positive-canvas error, `canvas.width = 60000` fails
with the canvas-too-large error, and a 1920×1080 project loads
successfully. -/
theorem loadProjectFile_checks_order :
    (∀ p : RawProject, (p.version = none ∨ p.version = some "") →
      loadProjectFile p = Except.error "Missing version field") ∧
    (∀ (p : RawProject) (v : String), p.version = some v → v ≠ "" →
      (p.canvas = none ∨
        ∃ c : RawCanvas, p.canvas = some c ∧ (c.width = none ∨ c.height = none)) →
      loadProjectFile p = Except.error "Missing or invalid canvas dimensions") ∧
    (∀ (p : RawProject) (v : String) (c : RawCanvas) (w h : Int),
      p.version = some v → v ≠ "" → p.canvas = some c →
      c.width = some w → c.height = some h → p.layers = none →
      loadProjectFile p = Except.error "Missing or invalid layers array") ∧
    (∀ (p : RawProject) (v : String) (c : RawCanvas) (w h : Int)
        (ls : List ProjectLayer),
      p.version = some v → v ≠ "" → p.canvas = some c →
      c.width = some w → c.height = some h → p.layers = some ls → p.presets = none →
      loadProjectFile p = Except.error "Missing or invalid presets array") ∧
    (∀ (p : RawProject) (v : String) (c : RawCanvas) (w h : Int)
        (ls : List ProjectLayer) (ps : List ProjectPreset),
      p.version = some v → v ≠ "" → p.canvas = some c →
      c.width = some w → c.height = some h → p.layers = some ls → p.presets = some ps →
      (w ≤ 0 ∨ h ≤ 0) →
      loadProjectFile p = Except.error "Canvas dimensions must be positive") ∧
    (∀ (p : RawProject) (v : String) (c : RawCanvas) (w h : Int)
        (ls : List ProjectLayer) (ps : List ProjectPreset),
      p.version = some v → v ≠ "" → p.canvas = some c →
      c.width = some w → c.height = some h → p.layers = some ls → p.presets = some ps →
      0 < w → 0 < h → (50000 < w ∨ 50000 < h) →
      loadProjectFile p = Except.error "Canvas dimensions are too large (max 50000px)") ∧
    (∀ (p : RawProject) (v : String) (c : RawCanvas) (w h : Int)
        (ls : List ProjectLayer) (ps : List ProjectPreset),
      p.version = some v → v ≠ "" → p.canvas = some c →
      c.width = some w → c.height = some h → p.layers = some ls → p.presets = some ps →
      0 < w → w ≤ 50000 → 0 < h → h ≤ 50000 →
      loadProjectFile p = Except.ok
        { version := v, canvas := { width := w, height := h },
          layers := ls, presets := ps }) ∧
    loadProjectFile
      { version := some "1.0", canvas := some { width := some 0, height := some 1080 },
        layers := some [], presets := some [] }
      = Except.error "Canvas dimensions must be positive" ∧
    loadProjectFile
      { version := some "1.0", canvas := some { width := some 60000, height := some 1080 },
        layers := some [], presets := some [] }
      = Except.error "Canvas dimensions are too large (max 50000px)" ∧
    loadProjectFile
      { version := some "1.0", canvas := some { width := some 1920, height := some 1080 },
        layers := some [], presets := some [] }
      = Except.ok { version := "1.0", canvas := { width := 1920, height := 1080 },
                    layers := [], presets := [] } := by
  refine ⟨?_, ?_, ?_, ?_, ?_, ?_, ?_, ?_, ?_, ?_⟩
  · rintro ⟨pv, pc, pl, pp⟩ (h | h) <;> subst h <;> rfl
  · rintro ⟨pv, pc, pl, pp⟩ v rfl hv (h | ⟨⟨cw, ch⟩, h, hwh⟩)
    · subst h
      simp [loadProjectFile, jsTruthyString, hv]
    · subst h
      rcases hwh with h | h <;> subst h <;>
        [cases ch; cases cw] <;>
        simp [loadProjectFile, jsTruthyString, hv]
  · rintro ⟨pv, pc, pl, pp⟩ v ⟨cw, ch⟩ w h rfl hv rfl rfl rfl rfl
    simp [loadProjectFile, jsTruthyString, hv]
  · rintro ⟨pv, pc, pl, pp⟩ v ⟨cw, ch⟩ w h ls rfl hv rfl rfl rfl rfl rfl
    simp [loadProjectFile, jsTruthyString, hv]
  · rintro ⟨pv, pc, pl, pp⟩ v ⟨cw, ch⟩ w h ls ps rfl hv rfl rfl rfl rfl rfl hwh
    simp [loadProjectFile, jsTruthyString, hv, hwh]
  · rintro ⟨pv, pc, pl, pp⟩ v ⟨cw, ch⟩ w h ls ps rfl hv rfl rfl rfl rfl rfl hw hh hbig
    have h1 : ¬ (w ≤ 0 ∨ h ≤ 0) := by omega
    simp [loadProjectFile, jsTruthyString, hv, h1, hbig]
  · rintro ⟨pv, pc, pl, pp⟩ v ⟨cw, ch⟩ w h ls ps rfl hv rfl rfl rfl rfl rfl hw hwle hh hhle
    have h1 : ¬ (w ≤ 0 ∨ h ≤ 0) := by omega
    have h2 : ¬ (50000 < w ∨ 50000 < h) := by omega
    simp [loadProjectFile, jsTruthyString, hv, h1, h2]
  · rfl
  · rfl
  · rfl

/-- Witness: the layers-array check fires (after the version and canvas
checks pass) on a concrete raw project with `layers` not an array. -/
theorem loadProjectFile_checks_order_witness :
    loadProjectFile
      { version := some "1.0", canvas := some { width := some 2, height := some 3 },
        layers := none, presets := some [] }
      = Except.error "Missing or invalid layers array" :=
  loadProjectFile_checks_order.2.2.1 _ "1.0" { width := some 2, height := some 3 } 2 3
    rfl (by decide) rfl rfl rfl rfl

/-! Behaviour of the quick-export decode loop (claims C1, C5, C8). -/

theorem checkComplete_painted (t : Nat) (s : LoopState) :
    (checkComplete t s).painted = s.painted := by
  unfold checkComplete
  split
  · split <;> rfl
  · rfl

theorem checkComplete_loadedImages (t : Nat) (s : LoopState) :
    (checkComplete t s).loadedImages = s.loadedImages := by
  unfold checkComplete
  split
  · split <;> rfl
  · rfl

theorem checkComplete_resolvedAt_of_ne (t : Nat) (s : LoopState)
    (h : s.loadedImages ≠ t) : (checkComplete t s).resolvedAt = s.resolvedAt := by
  unfold checkComplete
  rw [if_neg h]

theorem checkComplete_resolves (t : Nat) (s : LoopState)
    (h : s.loadedImages = t) (hr : s.resolvedAt = none) :
    (checkComplete t s).resolvedAt = some s.painted := by
  unfold checkComplete
  rw [if_pos h, hr]

theorem handleDecodeEvent_painted (t : Nat) (s : LoopState) (e : DecodeEvent) :
    (handleDecodeEvent t s e).painted = s.painted ++ e.successIndex.toList := by
  cases e <;>
    simp [handleDecodeEvent, checkComplete_painted, DecodeEvent.successIndex]

theorem handleDecodeEvent_loadedImages (t : Nat) (s : LoopState) (e : DecodeEvent) :
    (handleDecodeEvent t s e).loadedImages = s.loadedImages + 1 := by
  cases e <;> simp [handleDecodeEvent, checkComplete_loadedImages]

theorem foldl_decode_painted (t : Nat) :
    ∀ (es : List DecodeEvent) (s : LoopState),
      (es.foldl (handleDecodeEvent t) s).painted
        = s.painted ++ es.filterMap DecodeEvent.successIndex
  | [], s => by simp
  | e :: es, s => by
    have ih := foldl_decode_painted t es (handleDecodeEvent t s e)
    rw [List.foldl_cons, ih, handleDecodeEvent_painted, List.filterMap_cons]
    cases e <;> simp [DecodeEvent.successIndex]

theorem foldl_decode_loadedImages (t : Nat) :
    ∀ (es : List DecodeEvent) (s : LoopState),
      (es.foldl (handleDecodeEvent t) s).loadedImages = s.loadedImages + es.length
  | [], s => by simp
  | e :: es, s => by
    have ih := foldl_decode_loadedImages t es (handleDecodeEvent t s e)
    rw [List.foldl_cons, ih, handleDecodeEvent_loadedImages]
    simp [Nat.add_assoc, Nat.add_comm 1 es.length]

theorem foldl_decode_resolvedAt_none (t : Nat) :
    ∀ (es : List DecodeEvent) (s : LoopState), s.resolvedAt = none →
      s.loadedImages + es.length < t →
      (es.foldl (handleDecodeEvent t) s).resolvedAt = none
  | [], _, hr, _ => hr
  | e :: es, s, hr, hlt => by
    have hne : s.loadedImages + 1 ≠ t := by
      simp only [List.length_cons] at hlt
      omega
    have h1 : (handleDecodeEvent t s e).resolvedAt = none := by
      cases e with
      | load i =>
        show (checkComplete t { s with painted := s.painted ++ [i], loadedImages := s.loadedImages + 1 }).resolvedAt = none
        rw [checkComplete_resolvedAt_of_ne t _ hne]
        exact hr
      | fail i =>
        show (checkComplete t { s with loadedImages := s.loadedImages + 1 }).resolvedAt = none
        rw [checkComplete_resolvedAt_of_ne t _ hne]
        exact hr
    have ih := foldl_decode_resolvedAt_none t es (handleDecodeEvent t s e) h1 (by
      rw [handleDecodeEvent_loadedImages]
      simp only [List.length_cons] at hlt
      omega)
    simpa using ih

theorem foldl_decode_resolves (t : Nat) :
    ∀ (es : List DecodeEvent) (s : LoopState), s.resolvedAt = none → es ≠ [] →
      s.loadedImages + es.length = t →
      (es.foldl (handleDecodeEvent t) s).resolvedAt
        = some (s.painted ++ es.filterMap DecodeEvent.successIndex)
  | [], _, _, hne, _ => absurd rfl hne
  | [e], s, hr, _, hlen => by
    simp only [List.length_cons, List.length_nil, Nat.zero_add] at hlen
    cases e with
    | load i =>
      show (checkComplete t { s with painted := s.painted ++ [i], loadedImages := s.loadedImages + 1 }).resolvedAt = _
      rw [checkComplete_resolves t { s with painted := s.painted ++ [i], loadedImages := s.loadedImages + 1 } hlen hr]
      simp [DecodeEvent.successIndex]
    | fail i =>
      show (checkComplete t { s with loadedImages := s.loadedImages + 1 }).resolvedAt = _
      rw [checkComplete_resolves t { s with loadedImages := s.loadedImages + 1 } hlen hr]
      simp [DecodeEvent.successIndex]
  | e :: e2 :: es, s, hr, _, hlen => by
    simp only [List.length_cons] at hlen
    have hne : s.loadedImages + 1 ≠ t := by omega
    have h1 : (handleDecodeEvent t s e).resolvedAt = none := by
      cases e with
      | load i =>
        show (checkComplete t { s with painted := s.painted ++ [i], loadedImages := s.loadedImages + 1 }).resolvedAt = none
        rw [checkComplete_resolvedAt_of_ne t _ hne]
        exact hr
      | fail i =>
        show (checkComplete t { s with loadedImages := s.loadedImages + 1 }).resolvedAt = none
        rw [checkComplete_resolvedAt_of_ne t _ hne]
        exact hr
    have ih := foldl_decode_resolves t (e2 :: es) (handleDecodeEvent t s e) h1 (by simp)
      (by
        rw [handleDecodeEvent_loadedImages]
        simp only [List.length_cons]
        omega)
    rw [List.foldl_cons, ih, handleDecodeEvent_painted, List.filterMap_cons]
    cases e <;> simp [DecodeEvent.successIndex, List.filterMap_cons]

/-- The export paints in decode-completion order, not sorted-zIndex
order: with two visible layers of zIndex 0 and 1, when the zIndex-1
layer's decode completes first the canvas receives the zIndex-1 layer
first and the zIndex-0 layer on top — the opposite of the strictly
ascending order ([zIndex 0, zIndex 1]) the claim requires, because each
`img.onload` calls `ctx.drawImage` immediately when it fires. -/
theorem quickExport_paints_in_decode_completion_order :
    quickExportPNG
      [{ id := "a", name := "A", src := "sa", file_path := "a.png",
         width := 100, height := 100, isVisible := true, zIndex := 0 },
       { id := "b", name := "B", src := "sb", file_path := "b.png",
         width := 100, height := 100, isVisible := true, zIndex := 1 }]
      200 200 [DecodeEvent.load 1, DecodeEvent.load 0]
    = some { width := 200, height := 200,
             paintedLayers :=
               [{ id := "b", name := "B", src := "sb", file_path := "b.png",
                  width := 100, height := 100, isVisible := true, zIndex := 1 },
                { id := "a", name := "A", src := "sa", file_path := "a.png",
                  width := 100, height := 100, isVisible := true, zIndex := 0 }] } ∧
    visibleSorted
      [{ id := "a", name := "A", src := "sa", file_path := "a.png",
         width := 100, height := 100, isVisible := true, zIndex := 0 },
       { id := "b", name := "B", src := "sb", file_path := "b.png",
         width := 100, height := 100, isVisible := true, zIndex := 1 }]
    = [{ id := "a", name := "A", src := "sa", file_path := "a.png",
         width := 100, height := 100, isVisible := true, zIndex := 0 },
       { id := "b", name := "B", src := "sb", file_path := "b.png",
         width := 100, height := 100, isVisible := true, zIndex := 1 }] ∧
    ([{ id := "b", name := "B", src := "sb", file_path := "b.png",
        width := 100, height := 100, isVisible := true, zIndex := 1 },
      { id := "a", name := "A", src := "sa", file_path := "a.png",
        width := 100, height := 100, isVisible := true, zIndex := 0 }] : List Layer)
    ≠ [{ id := "a", name := "A", src := "sa", file_path := "a.png",
         width := 100, height := 100, isVisible := true, zIndex := 0 },
       { id := "b", name := "B", src := "sb", file_path := "b.png",
         width := 100, height := 100, isVisible := true, zIndex := 1 }] := by
  refine ⟨rfl, rfl, ?_⟩
  decide

/-- Claim C5: when every initiated decode settles exactly once (in any
order, succeeding or failing), the quick export resolves successfully
with exactly the successfully decoded layers painted (failed decodes are
skipped without affecting the outcome), and it does not resolve before
all initiated decodes have settled. -/
theorem quickExport_settles_after_all_decodes (layers : List Layer)
    (w h : Int) (es : List DecodeEvent)
    (hval : ValidEvents (visibleSorted layers).length es) :
    quickExportPNG layers w h es
      = some { width := w, height := h,
               paintedLayers := es.filterMap
                 (fun e => e.successIndex.bind (fun i => (visibleSorted layers)[i]?)) } ∧
    (∀ es2 : List DecodeEvent, es2.length < (visibleSorted layers).length →
      quickExportPNG layers w h es2 = none) := by
  have hlen : es.length = (visibleSorted layers).length := by
    have := hval.length_eq
    simpa using this
  constructor
  · rcases hvs : (visibleSorted layers).length with _ | n
    · have hes : es = [] := List.length_eq_zero.mp (by rw [hlen, hvs])
      subst hes
      simp [quickExportPNG, hvs]
    · have hne : es ≠ [] := by
        intro hes
        rw [hes] at hlen
        simp [hvs] at hlen
      have hres := foldl_decode_resolves (visibleSorted layers).length es
        { painted := [], loadedImages := 0, resolvedAt := none } rfl hne
        (by simpa using hlen)
      rw [hvs] at hres
      simp only [quickExportPNG, runDecodeEvents, hvs, Nat.succ_ne_zero, if_false, hres,
        List.nil_append]
      rw [List.filterMap_filterMap]
  · intro es2 hlt
    have hres := foldl_decode_resolvedAt_none (visibleSorted layers).length es2
      { painted := [], loadedImages := 0, resolvedAt := none } rfl (by simpa using hlt)
    have hpos : (visibleSorted layers).length ≠ 0 := by omega
    simp [quickExportPNG, runDecodeEvents, hpos, hres]

/-- Witness: two visible layers, the first decode fails and the second
succeeds; the export still resolves, painting only the second layer. -/
theorem quickExport_settles_after_all_decodes_witness :
    quickExportPNG
      [{ id := "a", name := "A", src := "sa", file_path := "a.png",
         width := 100, height := 100, isVisible := true, zIndex := 0 },
       { id := "b", name := "B", src := "sb", file_path := "b.png",
         width := 100, height := 100, isVisible := true, zIndex := 1 }]
      64 64 [DecodeEvent.fail 0, DecodeEvent.load 1]
    = some { width := 64, height := 64,
             paintedLayers :=
               [{ id := "b", name := "B", src := "sb", file_path := "b.png",
                  width := 100, height := 100, isVisible := true, zIndex := 1 }] } := by
  have h1 := (quickExport_settles_after_all_decodes
    [{ id := "a", name := "A", src := "sa", file_path := "a.png",
       width := 100, height := 100, isVisible := true, zIndex := 0 },
     { id := "b", name := "B", src := "sb", file_path := "b.png",
       width := 100, height := 100, isVisible := true, zIndex := 1 }]
    64 64 [DecodeEvent.fail 0, DecodeEvent.load 1] (by decide)).1
  rw [h1]
  rfl

/-- Claim C8: with no visible layers the quick export immediately
resolves with a blank canvas of exactly the context's dimensions — the
empty case is not an error (and no decode events are even needed). -/
theorem quickExport_empty_visible_blank (layers : List Layer) (w h : Int)
    (es : List DecodeEvent) (hvis : layers.filter (fun l => l.isVisible) = []) :
    quickExportPNG layers w h es
      = some { width := w, height := h, paintedLayers := [] } := by
  have hv : visibleSorted layers = [] := by
    rw [visibleSorted, hvis]
    rfl
  simp [quickExportPNG, hv]

/-- Witness: a single hidden layer composites to the blank 640×480
canvas without error. -/
theorem quickExport_empty_visible_blank_witness :
    quickExportPNG
      [{ id := "a", name := "A", src := "sa", file_path := "a.png",
         width := 100, height := 100, isVisible := false, zIndex := 0 }]
      640 480 []
      = some { width := 640, height := 480, paintedLayers := [] } :=
  quickExport_empty_visible_blank _ 640 480 [] (by decide)

/-! Draw geometry of one composited layer (claim C6). -/

/-- The claim fails on the web task manager's draw call: a 100×50 layer
on a 200×200 canvas is drawn at the full canvas rectangle (0, 0, 200,
200) — stretched, not aspect-preserving — while the claimed
scale-and-centre formula gives (0, 50, 200, 100). -/
theorem webDraw_not_scaled_centered :
    drawRectWeb 200 200 100 50 = { x := 0, y := 0, w := 200, h := 200 } ∧
    specScaledCenteredRect 200 200 100 50 = { x := 0, y := 50, w := 200, h := 100 } ∧
    drawRectWeb 200 200 100 50 ≠ specScaledCenteredRect 200 200 100 50 := by
  refine ⟨rfl, ?_, ?_⟩ <;> norm_num [specScaledCenteredRect, drawRectWeb]

/-- Amended claim: in the Tauri-aware task manager every drawn layer uses
exactly the claimed geometry — the draw rectangle equals the spec's
scale-and-centre formula, the scaling is uniform (aspect ratio
preserved: `w * layerHeight = h * layerWidth`), the scaled layer fits
within the canvas, and it is centred (equal margins on both sides in each
dimension). -/
theorem tauriDraw_scaled_centered (cw ch lw lh : ℚ) (hlw : 0 < lw) (hlh : 0 < lh) :
    drawRectTauri cw ch lw lh = specScaledCenteredRect cw ch lw lh ∧
    (drawRectTauri cw ch lw lh).w * lh = (drawRectTauri cw ch lw lh).h * lw ∧
    (drawRectTauri cw ch lw lh).w ≤ cw ∧
    (drawRectTauri cw ch lw lh).h ≤ ch ∧
    2 * (drawRectTauri cw ch lw lh).x + (drawRectTauri cw ch lw lh).w = cw ∧
    2 * (drawRectTauri cw ch lw lh).y + (drawRectTauri cw ch lw lh).h = ch := by
  refine ⟨rfl, ?_, ?_, ?_, ?_, ?_⟩
  · simp only [drawRectTauri]
    ring
  · simp only [drawRectTauri]
    calc lw * min (cw / lw) (ch / lh)
        ≤ lw * (cw / lw) := by
          exact mul_le_mul_of_nonneg_left (min_le_left _ _) hlw.le
      _ = cw := by
          rw [mul_comm, div_mul_cancel₀ _ hlw.ne']
  · simp only [drawRectTauri]
    calc lh * min (cw / lw) (ch / lh)
        ≤ lh * (ch / lh) := by
          exact mul_le_mul_of_nonneg_left (min_le_right _ _) hlh.le
      _ = ch := by
          rw [mul_comm, div_mul_cancel₀ _ hlh.ne']
  · simp only [drawRectTauri]
    ring
  · simp only [drawRectTauri]
    ring

/-- Witness: a 100×50 layer on the 200×200 canvas is drawn at
(0, 50, 200, 100) by the Tauri draw call, matching the spec formula. -/
theorem tauriDraw_scaled_centered_witness :
    drawRectTauri 200 200 100 50 = specScaledCenteredRect 200 200 100 50 ∧
    drawRectTauri 200 200 100 50 = { x := 0, y := 50, w := 200, h := 100 } :=
  ⟨(tauriDraw_scaled_centered 200 200 100 50 (by norm_num) (by norm_num)).1,
    by norm_num [drawRectTauri]⟩

/-! Preset application (claim C7). -/

/-- Claim C7: applying a preset's `layerStates` returns a layer list of
the same length where each layer keeps every field except `isVisible`,
which is overwritten by the mapping's value when the layer's id is bound
and left unchanged otherwise; ids bound in the mapping that match no
layer have no effect, and the operation is total (no error). -/
theorem applyPreset_overwrites_visibility_by_id
    (states : List (String × Bool)) (prev : List Layer) :
    (handleApplyPreset states prev).length = prev.length ∧
    (∀ (i : Nat) (l : Layer), prev[i]? = some l →
      ∃ r : Layer, (handleApplyPreset states prev)[i]? = some r ∧
        r.id = l.id ∧ r.name = l.name ∧ r.src = l.src ∧ r.file_path = l.file_path ∧
        r.width = l.width ∧ r.height = l.height ∧ r.zIndex = l.zIndex ∧
        (∀ b : Bool, recordLookup states l.id = some b → r.isVisible = b) ∧
        (recordLookup states l.id = none → r.isVisible = l.isVisible)) := by
  constructor
  · simp [handleApplyPreset]
  · intro i l hi
    refine ⟨{ l with isVisible := (recordLookup states l.id).getD l.isVisible }, ?_, rfl, rfl,
      rfl, rfl, rfl, rfl, rfl, ?_, ?_⟩
    · simp [handleApplyPreset, hi]
    · intro b hb
      simp [hb]
    · intro hb
      simp [hb]

/-- Witness: a preset binding the id "a" to hidden, a stale id "ghost",
and no binding for "b": layer "a" is overwritten to hidden, layer "b" is
unchanged. -/
theorem applyPreset_overwrites_visibility_by_id_witness :
    (handleApplyPreset [("a", false), ("ghost", true)]
      [{ id := "a", name := "A", src := "sa", file_path := "a.png",
         width := 100, height := 100, isVisible := true, zIndex := 0 },
       { id := "b", name := "B", src := "sb", file_path := "b.png",
         width := 100, height := 100, isVisible := true, zIndex := 1 }]).length = 2 ∧
    ∃ r : Layer,
      (handleApplyPreset [("a", false), ("ghost", true)]
        [{ id := "a", name := "A", src := "sa", file_path := "a.png",
           width := 100, height := 100, isVisible := true, zIndex := 0 },
         { id := "b", name := "B", src := "sb", file_path := "b.png",
           width := 100, height := 100, isVisible := true, zIndex := 1 }])[0]? = some r ∧
      r.isVisible = false := by
  have h := applyPreset_overwrites_visibility_by_id [("a", false), ("ghost", true)]
    [{ id := "a", name := "A", src := "sa", file_path := "a.png",
       width := 100, height := 100, isVisible := true, zIndex := 0 },
     { id := "b", name := "B", src := "sb", file_path := "b.png",
       width := 100, height := 100, isVisible := true, zIndex := 1 }]
  refine ⟨h.1, ?_⟩
  obtain ⟨r, hr, _, _, _, _, _, _, _, hb, _⟩ := h.2 0
    { id := "a", name := "A", src := "sa", file_path := "a.png",
      width := 100, height := 100, isVisible := true, zIndex := 0 } rfl
  exact ⟨r, hr, hb false (by decide)⟩

/-! Saved project contents (claim C4). -/

/-- The claim fails on the code: `TaskManager.handleSave` always passes
the literal `[]` as the presets argument of `ProjectLoader.exportProject`
(for every context), so the serialized file's `presets` field is empty
even though `exportProject` would faithfully convert a non-empty preset
collection to its on-disk form (`layer_states`, `created_at`), as the
second conjunct shows on a concrete preset. -/
theorem handleSave_serializes_empty_presets :
    (∀ ctx : TaskContext, (handleSaveProjectData ctx).presets = []) ∧
    (exportProject []
        [{ id := "p1", name := "Outfit A", layerStates := [("a", true)],
           createdAt := "2024-01-01T00:00:00.000Z" }] 1920 1080).presets
      = [{ id := "p1", name := "Outfit A", layer_states := [("a", true)],
           created_at := "2024-01-01T00:00:00.000Z" }] := by
  exact ⟨fun _ => rfl, rfl⟩

/-! Layer reordering (claim C9). -/

/-- Claim C9: when both ids are found, reordering keeps the multiset of
layer ids, puts the dragged layer at the target's former position, and
renumbers every layer's `zIndex` to its array index (contiguous
`0..n-1`); when either id is absent, the list is returned unchanged. -/
theorem reorderLayers_spec (draggedId targetId : String) (prev : List Layer) :
    (∀ d t : Nat,
      jsFindIndex (fun layer => layer.id == draggedId) prev = some d →
      jsFindIndex (fun layer => layer.id == targetId) prev = some t →
      List.Perm ((handleReorderLayers draggedId targetId prev).map Layer.id)
        (prev.map Layer.id) ∧
      ((handleReorderLayers draggedId targetId prev)[t]?).map Layer.id = some draggedId ∧
      (∀ (i : Nat) (r : Layer),
        (handleReorderLayers draggedId targetId prev)[i]? = some r →
        r.zIndex = Int.ofNat i)) ∧
    ((jsFindIndex (fun layer => layer.id == draggedId) prev = none ∨
      jsFindIndex (fun layer => layer.id == targetId) prev = none) →
      handleReorderLayers draggedId targetId prev = prev) := by
  constructor
  · intro d t hd ht
    obtain ⟨a, ha, hpa⟩ := jsFindIndex_eq_some _ prev d hd
    have hdlt : d < prev.length := jsFindIndex_lt_length _ prev d hd
    have htlt : t < prev.length := jsFindIndex_lt_length _ prev t ht
    have haid : a.id = draggedId := by simpa using hpa
    have htle : t ≤ (prev.eraseIdx d).length := by
      rw [List.length_eraseIdx, if_pos hdlt]
      omega
    have hres : handleReorderLayers draggedId targetId prev
        = mapWithIndex (fun index layer => { layer with zIndex := Int.ofNat index }) 0
            ((prev.eraseIdx d).insertIdx t a) := by
      simp only [handleReorderLayers, hd, ht, ha]
    have hperm : List.Perm ((prev.eraseIdx d).insertIdx t a) prev :=
      (List.perm_insertIdx a _ htle).trans (perm_getElem_cons_eraseIdx prev d a ha).symm
    refine ⟨?_, ?_, ?_⟩
    · rw [hres,
        mapWithIndex_map (fun index layer => { layer with zIndex := Int.ofNat index })
          Layer.id Layer.id (fun _ _ => rfl) 0 _]
      exact hperm.map Layer.id
    · rw [hres, mapWithIndex_getElem? _ 0 _ t, insertIdx_getElem?_self a t _ htle]
      simp [haid]
    · intro i r hi
      rw [hres, mapWithIndex_getElem? _ 0 _ i] at hi
      cases hx : ((prev.eraseIdx d).insertIdx t a)[i]? with
      | none =>
        rw [hx] at hi
        simp at hi
      | some b =>
        rw [hx] at hi
        have hi2 : some ((fun l : Layer => { l with zIndex := Int.ofNat (0 + i) }) b) = some r := hi
        have hi3 := Option.some.inj hi2
        rw [← hi3]
        show Int.ofNat (0 + i) = Int.ofNat i
        rw [Nat.zero_add]
  · intro habsent
    rcases habsent with h | h
    · cases ht : jsFindIndex (fun layer => layer.id == targetId) prev <;>
        simp [handleReorderLayers, h, ht]
    · cases hd : jsFindIndex (fun layer => layer.id == draggedId) prev <;>
        simp [handleReorderLayers, h, hd]

/-- Witness: dragging layer "c" onto layer "a" in a three-layer list:
the dragged layer lands at the target's former position (index 0), the
id multiset is preserved, and the layer at index 2 gets `zIndex = 2`. -/
theorem reorderLayers_spec_witness :
    ((handleReorderLayers "c" "a"
      [{ id := "a", name := "A", src := "sa", file_path := "a.png",
         width := 100, height := 100, isVisible := true, zIndex := 0 },
       { id := "b", name := "B", src := "sb", file_path := "b.png",
         width := 100, height := 100, isVisible := true, zIndex := 1 },
       { id := "c", name := "C", src := "sc", file_path := "c.png",
         width := 100, height := 100, isVisible := true, zIndex := 2 }])[0]?).map Layer.id
      = some "c" ∧
    ∀ r : Layer,
      (handleReorderLayers "c" "a"
        [{ id := "a", name := "A", src := "sa", file_path := "a.png",
           width := 100, height := 100, isVisible := true, zIndex := 0 },
         { id := "b", name := "B", src := "sb", file_path := "b.png",
           width := 100, height := 100, isVisible := true, zIndex := 1 },
         { id := "c", name := "C", src := "sc", file_path := "c.png",
           width := 100, height := 100, isVisible := true, zIndex := 2 }])[2]? = some r →
      r.zIndex = Int.ofNat 2 := by
  have h := (reorderLayers_spec "c" "a"
    [{ id := "a", name := "A", src := "sa", file_path := "a.png",
       width := 100, height := 100, isVisible := true, zIndex := 0 },
     { id := "b", name := "B", src := "sb", file_path := "b.png",
       width := 100, height := 100, isVisible := true, zIndex := 1 },
     { id := "c", name := "C", src := "sc", file_path := "c.png",
       width := 100, height := 100, isVisible := true, zIndex := 2 }]).1 2 0
    (by decide) (by decide)
  exact ⟨h.2.1, fun r hr => h.2.2 2 r hr⟩

/-! Layer deletion (claim C10). -/

theorem length_filter_ne_add_countP (f : α → β) [BEq β] (b : β) :
    ∀ l : List α,
      (l.filter (fun a => f a != b)).length + l.countP (fun a => f a == b) = l.length
  | [] => rfl
  | a :: l => by
    have ih := length_filter_ne_add_countP f b l
    simp only [bne] at ih ⊢
    cases hab : f a == b <;>
      simp [List.filter_cons, List.countP_cons, hab] <;>
      omega

theorem countP_le_one_of_nodup_map (f : α → β) [DecidableEq β] (b : β) :
    ∀ l : List α, (l.map f).Nodup → l.countP (fun a => f a == b) ≤ 1
  | [], _ => by simp
  | a :: l, h => by
    rw [List.map_cons, List.nodup_cons] at h
    by_cases hab : f a = b
    · have hzero : l.countP (fun a => f a == b) = 0 := by
        rw [List.countP_eq_zero]
        intro x hx
        have : f x ≠ b := by
          intro hfx
          apply h.1
          rw [hab, ← hfx]
          exact List.mem_map_of_mem f hx
        simpa using this
      simp [List.countP_cons, hab, hzero]
    · have ih := countP_le_one_of_nodup_map f b l h.2
      simpa [List.countP_cons, hab] using ih

/-- Claim C10: deleting is a no-op when at most one layer remains (so a
non-empty layer list is never emptied, given the unique-id invariant on
layer ids), and with two or more layers it removes exactly the layers
matching the given id via `filter`. -/
theorem deleteLayer_never_empties (id : String) (layers : List Layer) :
    (layers.length ≤ 1 → handleDeleteLayer id layers = layers) ∧
    (2 ≤ layers.length →
      handleDeleteLayer id layers = layers.filter (fun layer => layer.id != id)) ∧
    ((layers.map Layer.id).Nodup → layers ≠ [] → handleDeleteLayer id layers ≠ []) := by
  refine ⟨?_, ?_, ?_⟩
  · intro hle
    simp [handleDeleteLayer, hle]
  · intro hge
    rw [handleDeleteLayer, if_neg (by omega)]
  · intro hnodup hne
    by_cases hle : layers.length ≤ 1
    · rw [handleDeleteLayer, if_pos hle]
      exact hne
    · rw [handleDeleteLayer, if_neg hle]
      intro hempty
      have h1 := length_filter_ne_add_countP Layer.id id layers
      have h2 := countP_le_one_of_nodup_map Layer.id id layers hnodup
      rw [hempty] at h1
      simp only [List.length_nil, Nat.zero_add] at h1
      omega

/-- Witness: a two-layer list with distinct ids: deleting "a" removes
exactly that layer and leaves the list non-empty, while a singleton list
is untouched. -/
theorem deleteLayer_never_empties_witness :
    handleDeleteLayer "a"
      [{ id := "a", name := "A", src := "sa", file_path := "a.png",
         width := 100, height := 100, isVisible := true, zIndex := 0 },
       { id := "b", name := "B", src := "sb", file_path := "b.png",
         width := 100, height := 100, isVisible := true, zIndex := 1 }]
      ≠ [] ∧
    handleDeleteLayer "a"
      [{ id := "a", name := "A", src := "sa", file_path := "a.png",
         width := 100, height := 100, isVisible := true, zIndex := 0 }]
      = [{ id := "a", name := "A", src := "sa", file_path := "a.png",
           width := 100, height := 100, isVisible := true, zIndex := 0 }] :=
  ⟨(deleteLayer_never_empties "a"
      [{ id := "a", name := "A", src := "sa", file_path := "a.png",
         width := 100, height := 100, isVisible := true, zIndex := 0 },
       { id := "b", name := "B", src := "sb", file_path := "b.png",
         width := 100, height := 100, isVisible := true, zIndex := 1 }]).2.2
      (by decide) (by decide),
   (deleteLayer_never_empties "a"
      [{ id := "a", name := "A", src := "sa", file_path := "a.png",
         width := 100, height := 100, isVisible := true, zIndex := 0 }]).1
      (by decide)⟩

end CSPLM
